import Mathlib

/-!
Shallow embedding of the Highlight-Extractor pipeline
(src/subtitle_extractor.py, src/video_processor.py, src/config.py,
src/main.py), with theorems settling the spec claims about it.

Timestamps (seconds, Python floats) are modelled as rationals `ℚ`;
machine floats are treated as exact rational arithmetic, which is
faithful for the small millisecond-precision values the claims use.
-/

namespace HighlightExtractor

/-- A transcript segment as produced by `extract_subtitles` and consumed by
`filter_subtitles_for_highlights` / `generate_srt`: the dict
`{id, start, end, text, confidence}` (field `end` is renamed `end_`
because `end` is a Lean keyword). -/
structure Subtitle where
  id : Nat
  start : ℚ
  end_ : ℚ
  text : String
  confidence : ℚ
deriving DecidableEq, Repr

/-- A highlight candidate as consumed by `filter_subtitles_for_highlights`
and `create_highlight_video`: only the `start` / `end` keys of the dict are
read by those functions. -/
structure Highlight where
  start : ℚ
  end_ : ℚ
deriving DecidableEq, Repr

/-- State threaded through `filter_subtitles_for_highlights`:
the accumulated `filtered` list and the `subtitle_id` counter. -/
abbrev FilterState := List Subtitle × Nat

/-- Inner loop of `filter_subtitles_for_highlights` (subtitle_extractor.py
lines 66-80) for one highlight window: each subtitle overlapping the window
(`sub.end > h_start and sub.start < h_end`) is clipped to the window and
shifted by `offset`; `offset` is fixed for the whole window (computed before
the loop). -/
def processHighlightWindow (subtitles : List Subtitle) (h : Highlight)
    (offset : ℚ) (st : FilterState) : FilterState :=
  subtitles.foldl (fun acc sub =>
    if sub.end_ > h.start ∧ sub.start < h.end_ then
      (acc.1 ++ [{ id := acc.2,
                   start := max 0 (sub.start - h.start) + offset,
                   end_ := min (sub.end_ - h.start) (h.end_ - h.start) + offset,
                   text := sub.text,
                   confidence := sub.confidence }],
       acc.2 + 1)
    else acc) st

/-- The offset computed at the top of each highlight iteration
(subtitle_extractor.py lines 60-64): the `end` of the last element of
`filtered` so far, or `0` when `filtered` is empty. -/
def currentOffset (filtered : List Subtitle) : ℚ :=
  match filtered.getLast? with
  | some s => s.end_
  | none => 0

/-- `SubtitleExtractor.filter_subtitles_for_highlights` (subtitle_extractor.py
lines 50-82): for each highlight in order, compute the offset from the tail
of `filtered`, then run the inner subtitle loop. -/
def filter_subtitles_for_highlights (subtitles : List Subtitle)
    (highlights : List Highlight) : List Subtitle :=
  (highlights.foldl
    (fun st h => processHighlightWindow subtitles h (currentOffset st.1) st)
    ([], 0)).1

/-- The running offset the code would use for a further window after
processing `highlights`: the `end` of the last retained subtitle (0 when
none were retained). -/
def finalRunningOffset (subtitles : List Subtitle)
    (highlights : List Highlight) : ℚ :=
  currentOffset (filter_subtitles_for_highlights subtitles highlights)

/-- Left-pad a natural number's decimal form with zeros to width 2,
Python `f"{n:02d}"` for non-negative `n`. -/
def pad2 (n : Nat) : String :=
  if n < 10 then "0" ++ toString n else toString n

/-- Left-pad a natural number's decimal form with zeros to width 3,
Python `f"{n:03d}"` for non-negative `n`. -/
def pad3 (n : Nat) : String :=
  if n < 10 then "00" ++ toString n
  else if n < 100 then "0" ++ toString n
  else toString n

/-- `SubtitleExtractor.format_time` (subtitle_extractor.py lines 84-92).
`timedelta(seconds=x)` normalises to days / seconds / microseconds with
`0 ≤ seconds < 86400` and `0 ≤ microseconds < 1000000` (floor semantics,
fractional microseconds rounded); the code then reads only `td.seconds`
and `td.microseconds`, discarding `td.days`, so the hour field is computed
from the time-of-day remainder. -/
def format_time (seconds : ℚ) : String :=
  let us : ℤ := round (seconds * 1000000)
  let tdSeconds : ℤ := (us / 1000000) % 86400
  let tdMicro : ℤ := us % 1000000
  let hours := tdSeconds / 3600
  let minutes := (tdSeconds % 3600) / 60
  let secs := tdSeconds % 60
  let milliseconds := tdMicro / 1000
  pad2 hours.toNat ++ ":" ++ pad2 minutes.toNat ++ ":" ++ pad2 secs.toNat
    ++ "," ++ pad3 milliseconds.toNat

/-- `SubtitleExtractor.generate_srt` (subtitle_extractor.py lines 94-101):
string accumulation over `enumerate(subtitles, 1)`. -/
def generate_srt (subtitles : List Subtitle) : String :=
  (subtitles.enumFrom 1).foldl
    (fun acc p =>
      acc ++ toString p.1 ++ "\n"
          ++ format_time p.2.start ++ " --> " ++ format_time p.2.end_ ++ "\n"
          ++ p.2.text ++ "\n\n")
    ""

/-- One SRT block as the interchange format describes it:
`index\nHH:MM:SS,mmm --> HH:MM:SS,mmm\ntext\n\n`. -/
def srtBlock (idx : Nat) (s : Subtitle) : String :=
  toString idx ++ "\n" ++ format_time s.start ++ " --> " ++ format_time s.end_
    ++ "\n" ++ s.text ++ "\n\n"

/-- Specification-side rendering of a segment list: one `srtBlock` per
indexed segment, concatenated in order. -/
def srtSpec : List (Nat × Subtitle) → String
  | [] => ""
  | p :: t => srtBlock p.1 p.2 ++ srtSpec t

/-- `VideoProcessor.create_highlight_video` clip selection
(video_processor.py lines 102-108): each candidate clamped to
`[0, duration]`, kept when the clamped length is strictly greater than
`0.5` seconds, in candidate order; the output file is written only when
the resulting clip list is non-empty (lines 110-113). -/
def create_highlight_video (duration : ℚ) (highlights : List Highlight) :
    List (ℚ × ℚ) :=
  highlights.foldl (fun clips h =>
    let start := max 0 h.start
    let end_ := min duration h.end_
    if end_ - start > 1/2 then clips ++ [(start, end_)] else clips) []

/-- config.py line 22: `TARGET_RESOLUTION = (1080, 1920)`. -/
def TARGET_RESOLUTION : ℕ × ℕ := (1080, 1920)

/-- config.py line 24: `MAX_VIDEO_SIZE_MB = 500`. -/
def MAX_VIDEO_SIZE_MB : ℚ := 500

/-- The frame geometry computed by `VideoProcessor.resize_video`
(video_processor.py lines 28-62): the scale factor, the resized frame size
and the crop rectangle handed to `crop(x1, y1, x2, y2)`. -/
structure ResizeGeometry where
  scale : ℚ
  new_w : ℤ
  new_h : ℤ
  x1 : ℤ
  y1 : ℤ
  x2 : ℤ
  y2 : ℤ
deriving DecidableEq, Repr

/-- `VideoProcessor.resize_video` (video_processor.py lines 28-62) on an
input frame of `input_w × input_h` pixels. The code unpacks
`target_h, target_w = self.target_resolution`, so the FIRST component of
the configured pair becomes the target height and the SECOND the target
width. Python `int()` on the non-negative products is floor; `// 2` is
floor division. -/
def resize_video (input_w input_h : ℕ) (target_resolution : ℕ × ℕ) :
    ResizeGeometry :=
  let target_h : ℤ := target_resolution.1
  let target_w : ℤ := target_resolution.2
  let scale_w : ℚ := (target_w : ℚ) / (input_w : ℚ)
  let scale_h : ℚ := (target_h : ℚ) / (input_h : ℚ)
  let scale := max scale_w scale_h
  let new_w : ℤ := Int.floor ((input_w : ℚ) * scale)
  let new_h : ℤ := Int.floor ((input_h : ℚ) * scale)
  let x_center := (new_w - target_w) / 2
  let y_center := (new_h - target_h) / 2
  { scale := scale, new_w := new_w, new_h := new_h,
    x1 := x_center, y1 := y_center,
    x2 := x_center + target_w, y2 := y_center + target_h }

/-- Pixel size `(width, height)` of the cropped output frame. -/
def outputDims (g : ResizeGeometry) : ℤ × ℤ := (g.x2 - g.x1, g.y2 - g.y1)

/-- A live observer handle in the Connection Registry; `connected` records
whether a `send_json` to it still succeeds. -/
structure Observer where
  oid : ℕ
  connected : Bool
deriving DecidableEq, Repr

/-- `ConnectionManager.active_connections`: job id to observer list. -/
abbrev ConnectionRegistry := List (String × List Observer)

/-- `websocket.send_json` as the broadcaster sees it: succeeds while the
observer is connected, raises once it has disconnected. -/
def sendJson (o : Observer) : Except String Unit :=
  if o.connected then Except.ok () else Except.error "disconnected"

/-- One iteration of the broadcast loop (main.py lines 67-71):
`try: await connection.send_json(message) except: pass` — a successful
send adds the observer to the delivered list, a failed one is ignored. -/
def broadcastStep (acc : List ℕ) (o : Observer) : List ℕ :=
  match sendJson o with
  | Except.ok _ => acc ++ [o.oid]
  | Except.error _ => acc

/-- `ConnectionManager.broadcast` (main.py lines 65-71): when the job id is
registered, each observer's send is attempted inside `try ... except: pass`;
a failed send is silently skipped and the registry is not modified. The
result pairs the ids that received the message with the registry afterwards;
it is an `Except` so that a raising broadcast could be expressed. -/
def broadcast (registry : ConnectionRegistry) (job_id : String) :
    Except String (List ℕ × ConnectionRegistry) :=
  match registry.lookup job_id with
  | none => Except.ok ([], registry)
  | some conns => Except.ok (conns.foldl broadcastStep [], registry)

/-- A job-registry record as written by the endpoints in main.py; `progress`
is `none` when the write does not carry a progress key (the `except` branch
of `process_video` writes only status and message). Timestamps are not
modelled. -/
structure JobRecord where
  status : String
  progress : Option ℕ
  message : String
deriving DecidableEq, Repr

/-- Outcome of an HTTP endpoint call: a JSON payload or an HTTPException. -/
inductive ApiResult where
  | ok (payload : String)
  | httpError (code : ℕ) (detail : String)
deriving DecidableEq, Repr

/-- `file.filename.endswith(('.mp4', '.avi', '.mov', '.mkv'))`
(main.py line 105); `endswith` is expressed on the character lists of the
strings. -/
def validExtension (filename : String) : Bool :=
  [".mp4", ".avi", ".mov", ".mkv"].any
    (fun ext => ext.data.isSuffixOf filename.data)

/-- `process_video` (main.py lines 100-141), restricted to its registry
effect and HTTP outcome for an upload of `size_mb` megabytes
(`len(content) / (1024 * 1024)`). Both validation failures raise an
`HTTPException` (400 resp. 413) inside the `try` block; `except Exception`
catches it, writes `jobs[job_id] = {"status": "error", "message": str(e)}`
and re-raises `HTTPException(500, str(e))` — the 500's detail and the
record's message are modelled by the original detail text. Disk writes and
the background-task dispatch are not modelled. -/
def process_video (job_id filename : String) (size_mb : ℚ)
    (jobs : List (String × JobRecord)) :
    List (String × JobRecord) × ApiResult :=
  if ¬ validExtension filename then
    (jobs ++ [(job_id,
        { status := "error", progress := none, message := "Invalid video format" })],
     ApiResult.httpError 500 "Invalid video format")
  else if size_mb > MAX_VIDEO_SIZE_MB then
    (jobs ++ [(job_id,
        { status := "error", progress := none,
          message := "File too large (max 500MB)" })],
     ApiResult.httpError 500 "File too large (max 500MB)")
  else
    (jobs ++ [(job_id,
        { status := "processing", progress := some 0,
          message := "Uploaded successfully, starting processing..." })],
     ApiResult.ok job_id)

/-- `update_job` (main.py lines 265-269) caps the written progress:
`jobs[job_id]["progress"] = min(progress, 100)`. -/
def update_job_progress (progress : ℕ) : ℕ := min progress 100

/-- The progress values written for a job run by `process_video_async`
(main.py lines 200-257) when every step succeeds: seven `update_job` calls
then the direct `jobs[job_id]["progress"] = 100` of the completion write. -/
def videoPipelineProgress (start_progress : ℕ) : List ℕ :=
  [update_job_progress (start_progress + 20),
   update_job_progress (start_progress + 35),
   update_job_progress (start_progress + 50),
   update_job_progress (start_progress + 60),
   update_job_progress (start_progress + 70),
   update_job_progress (start_progress + 80),
   update_job_progress 95,
   100]

/-- Progress values over an upload job's lifetime: `0` at creation
(main.py line 119) then the pipeline with `start_progress = 0`. -/
def uploadProgressTrace : List ℕ := 0 :: videoPipelineProgress 0

/-- Progress values over a URL job's lifetime: `0` at creation (main.py
line 156), the `5` and `15` updates of `process_url_async`, then the
pipeline with `start_progress = 15`. -/
def urlProgressTrace : List ℕ :=
  0 :: update_job_progress 5 :: update_job_progress 15
    :: videoPipelineProgress 15

/-- One mutation of a job's registry record; `progress` is `none` when the
write leaves the progress field untouched, and `output_dir` / `metadata`
record whether those fields are set by the write. -/
structure JobWrite where
  status : String
  progress : Option ℕ
  message : String
  output_dir : Bool
  metadata : Bool
deriving DecidableEq, Repr

/-- A write performed through `update_job` (main.py lines 265-269). -/
def updateWrite (progress : ℕ) (message : String) : JobWrite :=
  { status := "processing", progress := some (min progress 100),
    message := message, output_dir := false, metadata := false }

/-- The completion write (main.py lines 250-254). -/
def completedWrite : JobWrite :=
  { status := "completed", progress := some 100,
    message := "Processing completed successfully!",
    output_dir := true, metadata := true }

/-- The write of an `except` block (main.py lines 196-197 and 261-262):
status and message only. -/
def errorWrite (message : String) : JobWrite :=
  { status := "error", progress := none, message := message,
    output_dir := false, metadata := false }

/-- The seven `update_job` calls of `process_video_async`, in program
order (main.py lines 205, 209, 212, 218, 222, 231, 235). -/
def videoUpdates (s : ℕ) : List JobWrite :=
  [updateWrite (s + 20) "Extracting audio...",
   updateWrite (s + 35) "Extracting subtitles using Whisper...",
   updateWrite (s + 50) "Detecting highlights with GPT-4...",
   updateWrite (s + 60) "Resizing video to 9:16 vertical format...",
   updateWrite (s + 70) "Embedding subtitles into video...",
   updateWrite (s + 80) "Creating highlight reel...",
   updateWrite 95 "Finalizing results..."]

/-- Job-record writes of `process_video_async` (main.py lines 200-263).
The fallible operation following the `(k+1)`-th update is indexed `k`
(0 extract_audio, 1 extract_subtitles, 2 detect_highlights, 3 resize_video,
4 add_subtitles, 5 create_highlight_video, 6 metadata dump); when operation
`k` raises, the catch-all `except` writes the error record and the function
returns. `failStep = none` is the all-success run ending in the completion
write. -/
def process_video_async (s : ℕ) (failStep : Option (Fin 7))
    (errMsg : String) : List JobWrite :=
  match failStep with
  | none => videoUpdates s ++ [completedWrite]
  | some k => (videoUpdates s).take (k.val + 1) ++ [errorWrite errMsg]

/-- Job-record writes of `process_url_async` (main.py lines 181-198),
including those of the nested `process_video_async` call with
`start_progress = 15`. `process_video_async` catches every exception of its
own body, so the outer `except` block runs only when the download raises. -/
def process_url_async (downloadFails : Bool) (failStep : Option (Fin 7))
    (errMsg : String) : List JobWrite :=
  if downloadFails then
    [updateWrite 5 "Downloading video from URL...", errorWrite errMsg]
  else
    updateWrite 5 "Downloading video from URL..."
      :: updateWrite 15 "Video downloaded, starting processing..."
      :: process_video_async 15 failStep errMsg

/-- A write is terminal when it sets the status to `completed` or `error`. -/
def isTerminal (w : JobWrite) : Bool :=
  w.status == "completed" || w.status == "error"

/-- No write before the last one of a trace is terminal: once a terminal
status is written, nothing further is written. -/
def terminalOnlyLast (l : List JobWrite) : Prop :=
  ∀ w ∈ l.dropLast, isTerminal w = false

/-- Files placed in the job's output directory on an all-success run of
`process_video_async`; `highlights.mp4` is written only when
`create_highlight_video` retained at least one clip
(video_processor.py lines 110-113). -/
def pipelineArtifacts (duration : ℚ) (highlights : List Highlight) :
    List String :=
  ["audio.mp3", "resized.mp4", "subtitles.srt", "final_with_subtitles.mp4"]
    ++ (if create_highlight_video duration highlights = [] then []
        else ["highlights.mp4"])
    ++ ["metadata.json"]

/-- `file_mapping` of `download_file` (main.py lines 300-305). -/
def file_mapping : List (String × String) :=
  [("final", "final_with_subtitles.mp4"), ("highlights", "highlights.mp4"),
   ("subtitles", "subtitles.srt"), ("metadata", "metadata.json")]

/-- `download_file` (main.py lines 293-326): unknown job id is a 404,
unknown file type a 400, a mapped file that does not exist on disk a 404;
otherwise the file is served. `existingFiles` stands for the files present
in the job's output directory. -/
def download_file (jobExists : Bool) (existingFiles : List String)
    (file_type : String) : Except (ℕ × String) String :=
  if ¬ jobExists then Except.error (404, "Job not found")
  else
    match file_mapping.lookup file_type with
    | none => Except.error (400, "Invalid file type")
    | some fname =>
        if existingFiles.contains fname then Except.ok fname
        else Except.error (404, "File not found")

end HighlightExtractor

namespace HighlightExtractor

theorem currentOffset_concat (l : List Subtitle) (s : Subtitle) :
    currentOffset (l ++ [s]) = s.end_ := by
  simp [currentOffset, List.getLast?_concat]

theorem processHighlightWindow_offset_le (h : Highlight) (offset B : ℚ)
    (hB : offset + (h.end_ - h.start) ≤ B) :
    ∀ (subs : List Subtitle) (st : FilterState),
      currentOffset st.1 ≤ B →
      currentOffset (processHighlightWindow subs h offset st).1 ≤ B := by
  intro subs
  induction subs with
  | nil => intro st hst; simpa [processHighlightWindow] using hst
  | cons s t ih =>
    intro st hst
    rw [processHighlightWindow, List.foldl_cons]
    by_cases hc : s.end_ > h.start ∧ s.start < h.end_
    · rw [if_pos hc]
      refine ih _ ?_
      rw [currentOffset_concat]
      have hmin : min (s.end_ - h.start) (h.end_ - h.start) ≤ h.end_ - h.start :=
        min_le_right _ _
      simp only []
      linarith
    · rw [if_neg hc]
      exact ih st hst

theorem filter_offset_le (subs : List Subtitle) :
    ∀ (highlights : List Highlight) (st : FilterState),
      (∀ h ∈ highlights, h.start ≤ h.end_) →
      currentOffset ((highlights.foldl
          (fun st h => processHighlightWindow subs h (currentOffset st.1) st)
          st).1)
        ≤ currentOffset st.1
            + ((highlights.map fun h => h.end_ - h.start).sum) := by
  intro highlights
  induction highlights with
  | nil => intro st _; simp
  | cons h t ih =>
    intro st hall
    rw [List.foldl_cons, List.map_cons, List.sum_cons]
    have hd : h.start ≤ h.end_ := hall h (by simp)
    have h1 : currentOffset (processHighlightWindow subs h (currentOffset st.1) st).1
        ≤ currentOffset st.1 + (h.end_ - h.start) :=
      processHighlightWindow_offset_le h (currentOffset st.1) _ (le_refl _)
        subs st (by linarith)
    have h2 := ih (processHighlightWindow subs h (currentOffset st.1) st)
      (fun h' hm => hall h' (List.mem_cons_of_mem _ hm))
    linarith

/-- C1 (amended): the retime operation does not advance the running offset
by the full window span; the offset the code carries into the next window
is the `end` of the last retained subtitle (`filtered[-1]['end']`, or 0
when nothing was retained), so chaining `filter_subtitles_for_highlights`
across windows of non-negative span yields a final running offset at most
`sum(h_end_i - h_start_i)`, with strict inequality whenever the last
overlapping segment of some window ends before that window does. -/
theorem retime_running_offset_le_sum (subtitles : List Subtitle)
    (highlights : List Highlight)
    (hwin : ∀ h ∈ highlights, h.start ≤ h.end_) :
    finalRunningOffset subtitles highlights
      ≤ ((highlights.map fun h => h.end_ - h.start).sum) := by
  have hmain := filter_offset_le subtitles highlights ([], 0) hwin
  simpa [finalRunningOffset, filter_subtitles_for_highlights, currentOffset]
    using hmain

/-- Witness for `retime_running_offset_le_sum` at one subtitle `[0, 1)` and
two copies of the window `[0, 10)`. -/
theorem retime_running_offset_le_sum_witness :
    finalRunningOffset [⟨0, 0, 1, "a", 0⟩]
        [⟨0, 10⟩, ⟨0, 10⟩]
      ≤ ((([⟨0, 10⟩, ⟨0, 10⟩] : List Highlight).map
          fun h => h.end_ - h.start).sum) :=
  retime_running_offset_le_sum _ _ (by
    intro h hm
    rcases (List.mem_cons.mp hm) with h1 | h1
    · rw [h1]; norm_num
    · rcases (List.mem_cons.mp h1) with h2 | h2
      · rw [h2]; norm_num
      · simp at h2)

/-- C1 counterexample: one subtitle `[0, 1)` and the two highlight windows
`[0, 10), [0, 10)` have total window duration 20, but the code's final
running offset (the `end` of the last retained subtitle) is 2: the second
window is placed at offset 1, not at offset 10. -/
theorem retime_running_offset_counterexample :
    finalRunningOffset [⟨0, 0, 1, "a", 0⟩] [⟨0, 10⟩, ⟨0, 10⟩] = 2 ∧
    ((([⟨0, 10⟩, ⟨0, 10⟩] : List Highlight).map
        fun h => h.end_ - h.start).sum) = 20 ∧
    (2 : ℚ) ≠ 20 := by
  refine ⟨?_, by norm_num, by norm_num⟩
  norm_num [finalRunningOffset, filter_subtitles_for_highlights,
    processHighlightWindow, currentOffset]

theorem processHighlightWindow_full_window (D : ℚ) :
    ∀ (rest acc : List Subtitle) (k : Nat),
      (∀ i (hi : i < rest.length),
        (rest.get ⟨i, hi⟩).id = k + i ∧
        0 ≤ (rest.get ⟨i, hi⟩).start ∧
        (rest.get ⟨i, hi⟩).start < (rest.get ⟨i, hi⟩).end_ ∧
        (rest.get ⟨i, hi⟩).end_ ≤ D) →
      processHighlightWindow rest ⟨0, D⟩ 0 (acc, k)
        = (acc ++ rest, k + rest.length) := by
  intro rest
  induction rest with
  | nil => intro acc k _; simp [processHighlightWindow]
  | cons s t ih =>
    intro acc k hyp
    have h0 := hyp 0 (by simp)
    simp only [List.get_cons_zero] at h0
    rw [processHighlightWindow, List.foldl_cons]
    have hcond : s.end_ > (0 : ℚ) ∧ s.start < D :=
      ⟨lt_of_le_of_lt h0.2.1 h0.2.2.1, lt_of_lt_of_le h0.2.2.1 h0.2.2.2⟩
    rw [if_pos hcond]
    have heq : ({ id := k, start := max 0 (s.start - 0) + 0,
                  end_ := min (s.end_ - 0) (D - 0) + 0,
                  text := s.text, confidence := s.confidence } : Subtitle) = s := by
      obtain ⟨sid, sstart, send_, stext, sconf⟩ := s
      obtain ⟨hid, hnn, hlt, hle⟩ := h0
      have h1 : max 0 (sstart - 0) + 0 = sstart := by
        rw [sub_zero, add_zero]; exact max_eq_right hnn
      have h2 : min (send_ - 0) (D - 0) + 0 = send_ := by
        rw [sub_zero, sub_zero, add_zero]; exact min_eq_left hle
      have h3 : k = sid := by
        have hid2 : sid = k + 0 := hid
        omega
      simp only [h1, h2, h3]
    have hstep := ih (acc ++ [s]) (k + 1) (fun i hi => by
      have := hyp (i + 1) (by simpa using Nat.succ_lt_succ hi)
      simpa [Nat.add_assoc, Nat.add_comm 1 i] using this)
    simp only [heq] at hstep ⊢
    rw [show processHighlightWindow t ⟨0, D⟩ 0 (acc ++ [s], k + 1)
          = t.foldl _ (acc ++ [s], k + 1) from rfl] at hstep
    rw [hstep]
    simp [Nat.add_comm, Nat.add_assoc, Nat.add_left_comm]

/-- C9: applying `filter_subtitles_for_highlights` with the single highlight
window `[0, D)` to segments that carry their list position as `id` and lie
within `[0, D]` with `start < end` returns the segment list unchanged. -/
theorem retime_single_full_window_identity (subtitles : List Subtitle)
    (D : ℚ)
    (hsubs : ∀ i (hi : i < subtitles.length),
      (subtitles.get ⟨i, hi⟩).id = i ∧
      0 ≤ (subtitles.get ⟨i, hi⟩).start ∧
      (subtitles.get ⟨i, hi⟩).start < (subtitles.get ⟨i, hi⟩).end_ ∧
      (subtitles.get ⟨i, hi⟩).end_ ≤ D) :
    filter_subtitles_for_highlights subtitles [⟨0, D⟩] = subtitles := by
  have hrun := processHighlightWindow_full_window D subtitles [] 0
    (by simpa using hsubs)
  rw [filter_subtitles_for_highlights, List.foldl_cons, List.foldl_nil]
  rw [show currentOffset (([], 0) : FilterState).1 = 0 from rfl]
  rw [hrun]
  simp

/-- Witness for `retime_single_full_window_identity` on the mock transcript
segments `[0,2) "hi"` and `[3,5) "key moment"` with `D = 10`. -/
theorem retime_single_full_window_identity_witness :
    filter_subtitles_for_highlights
        [⟨0, 0, 2, "hi", 1⟩, ⟨1, 3, 5, "key moment", 0⟩] [⟨0, 10⟩]
      = [⟨0, 0, 2, "hi", 1⟩, ⟨1, 3, 5, "key moment", 0⟩] :=
  retime_single_full_window_identity _ 10 (by
    intro i hi
    simp only [List.length_cons, List.length_nil] at hi
    interval_cases i <;> norm_num [List.get])

theorem format_time_eq (x : ℚ) (us : ℤ) (h : round (x * 1000000) = us) :
    format_time x
      = pad2 ((us / 1000000 % 86400) / 3600).toNat ++ ":"
        ++ pad2 ((us / 1000000 % 86400 % 3600) / 60).toNat ++ ":"
        ++ pad2 (us / 1000000 % 86400 % 60).toNat ++ ","
        ++ pad3 ((us % 1000000) / 1000).toNat := by
  simp only [format_time, h]

theorem generate_srt_go (l : List (Nat × Subtitle)) :
    ∀ acc : String,
      l.foldl (fun acc p =>
        acc ++ toString p.1 ++ "\n" ++ format_time p.2.start ++ " --> "
          ++ format_time p.2.end_ ++ "\n" ++ p.2.text ++ "\n\n") acc
        = acc ++ srtSpec l := by
  induction l with
  | nil =>
    intro acc
    rw [List.foldl_nil]
    simp only [srtSpec]
    rw [String.append_empty]
  | cons p t ih =>
    intro acc
    rw [List.foldl_cons, ih]
    simp only [srtSpec, srtBlock]
    simp [String.append_assoc]

/-- C7 (amended): `generate_srt` renders exactly one block per segment in
list order, with sequential 1-based indices, in the form
`index\nHH:MM:SS,mmm --> HH:MM:SS,mmm\ntext\n\n` at millisecond precision;
but the hour field is the time-of-day hour (`td.seconds` discards whole
days), i.e. it wraps modulo 24: a whole-second timestamp of `n` seconds
renders with hour field `n / 3600 % 24`, so 90000 seconds renders with
hour field 01, not 25. -/
theorem generate_srt_blocks_hours_wrap :
    (∀ subtitles : List Subtitle,
        generate_srt subtitles = srtSpec (subtitles.enumFrom 1)) ∧
    (∀ n : ℕ, format_time (n : ℚ)
        = pad2 (n / 3600 % 24) ++ ":" ++ pad2 (n % 3600 / 60) ++ ":"
          ++ pad2 (n % 60) ++ "," ++ pad3 0) := by
  constructor
  · intro subtitles
    rw [generate_srt, generate_srt_go, String.empty_append]
  · intro n
    have hcast : ((n : ℚ) * 1000000) = (((n * 1000000 : ℕ)) : ℚ) := by
      push_cast; ring
    have hus : round ((n : ℚ) * 1000000) = ((n * 1000000 : ℕ) : ℤ) := by
      rw [hcast, round_natCast]
    rw [format_time_eq (n : ℚ) ((n * 1000000 : ℕ) : ℤ) hus]
    have e1 : (((n * 1000000 : ℕ) : ℤ) / 1000000 % 86400) / 3600
        = ((n / 3600 % 24 : ℕ) : ℤ) := by omega
    have e2 : (((n * 1000000 : ℕ) : ℤ) / 1000000 % 86400 % 3600) / 60
        = ((n % 3600 / 60 : ℕ) : ℤ) := by omega
    have e3 : ((n * 1000000 : ℕ) : ℤ) / 1000000 % 86400 % 60
        = ((n % 60 : ℕ) : ℤ) := by omega
    have e4 : (((n * 1000000 : ℕ) : ℤ) % 1000000) / 1000 = (0 : ℤ) := by
      omega
    rw [e1, e2, e3, e4]
    simp only [Int.toNat_natCast, Int.toNat_zero]

/-- C7 counterexample: rendering a timestamp of 90000 seconds with
unbounded hours would give `25:00:00,000`; `format_time` renders
`01:00:00,000`. -/
theorem format_time_hours_wrap_counterexample :
    format_time 90000 = "01:00:00,000" ∧ format_time 90000 ≠ "25:00:00,000" := by
  have h : format_time 90000 = "01:00:00,000" := by
    norm_num [format_time, pad2, pad3]
    rfl
  exact ⟨h, by rw [h]; decide⟩

theorem create_highlight_video_go (duration : ℚ) :
    ∀ (hs : List Highlight) (acc : List (ℚ × ℚ)),
      hs.foldl (fun clips h =>
        let start := max 0 h.start
        let end_ := min duration h.end_
        if end_ - start > 1/2 then clips ++ [(start, end_)] else clips) acc
      = acc ++ ((hs.map fun h => (max 0 h.start, min duration h.end_)).filter
          fun c => decide ((1:ℚ)/2 < c.2 - c.1)) := by
  intro hs
  induction hs with
  | nil => intro acc; simp
  | cons h t ih =>
    intro acc
    rw [List.foldl_cons]
    rw [List.map_cons, List.filter_cons]
    simp only [decide_eq_true_eq]
    by_cases hc : (1:ℚ)/2 < min duration h.end_ - max 0 h.start
    · rw [if_pos hc, if_pos hc, ih, List.append_assoc, List.singleton_append]
    · rw [if_neg hc, if_neg hc, ih]

/-- C8 (amended): `create_highlight_video` clamps every candidate to
`[0, duration]`, keeps a clamped range if and only if its length is
strictly greater than 0.5 seconds (an exactly-0.5 s range is dropped: the
condition is `end - start > 0.5`), and concatenates the kept clips in
candidate-list order. -/
theorem create_highlight_video_clamp_filter (duration : ℚ)
    (highlights : List Highlight) :
    create_highlight_video duration highlights
      = ((highlights.map fun h => (max 0 h.start, min duration h.end_)).filter
          fun c => decide ((1:ℚ)/2 < c.2 - c.1)) := by
  rw [create_highlight_video, create_highlight_video_go]
  simp

/-- C8 counterexample: in a 10 second video the candidate `[1, 1.5]` clamps
to itself with length exactly 0.5 s; the claim keeps it, the code drops it
(`end - start > 0.5` is strict). -/
theorem create_highlight_video_half_second_counterexample :
    create_highlight_video 10 [⟨1, 3/2⟩] = [] ∧
    min (10 : ℚ) (3/2) - max 0 1 = 1/2 := by
  constructor
  · norm_num [create_highlight_video]
  · norm_num

/-- C2 (evaluation of the defect): `resize_video` unpacks the configured
pair as `target_h, target_w = self.target_resolution`, so with
`TARGET_RESOLUTION = (1080, 1920)` the crop box is always 1920 pixels wide
by 1080 pixels tall — landscape, not the configured 1080-wide by 1920-tall
portrait frame — and the scale factor applied to a 1920×1080 input is
`max(1920/1920, 1080/1080) = 1`, leaving the frame untouched instead of
cover-fitting it into a portrait box. -/
theorem resize_video_output_landscape :
    (∀ w h : ℕ, outputDims (resize_video w h TARGET_RESOLUTION) = (1920, 1080)) ∧
    (resize_video 1920 1080 TARGET_RESOLUTION).scale = 1 ∧
    ((1920, 1080) : ℤ × ℤ) ≠ ((1080, 1920) : ℤ × ℤ) := by
  refine ⟨?_, ?_, by decide⟩
  · intro w h
    simp only [resize_video, outputDims, TARGET_RESOLUTION, Prod.mk.injEq]
    constructor <;> ring
  · norm_num [resize_video, TARGET_RESOLUTION]

theorem broadcast_foldl (conns : List Observer) :
    ∀ acc : List ℕ,
      conns.foldl broadcastStep acc
      = acc ++ ((conns.filter fun o => o.connected).map fun o => o.oid) := by
  induction conns with
  | nil => intro acc; simp
  | cons o t ih =>
    intro acc
    rw [List.foldl_cons, List.filter_cons]
    cases hc : o.connected
    · have hs : broadcastStep acc o = acc := by
        simp [broadcastStep, sendJson, hc]
      rw [hs, ih]
      simp [hc]
    · have hs : broadcastStep acc o = acc ++ [o.oid] := by
        simp [broadcastStep, sendJson, hc]
      rw [hs, ih]
      simp [hc]

/-- C3 (amended): `broadcast` attempts delivery to every observer
registered for the job — the connected ones receive the publish in
registration order, a failed delivery is swallowed by `except: pass`, and
no error reaches the caller — but the registry is left unchanged: the
failed observer is NOT unregistered by the publish (only the websocket
handler's explicit disconnect path removes it). -/
theorem broadcast_best_effort (registry : ConnectionRegistry)
    (job_id : String) :
    broadcast registry job_id
      = Except.ok
          ((((registry.lookup job_id).getD []).filter
              fun o => o.connected).map fun o => o.oid,
           registry) := by
  rw [broadcast]
  rcases hl : registry.lookup job_id with _ | conns
  · simp
  · simp [broadcast_foldl]

/-- C3 counterexample: with observer A (id 0, disconnected) and observer B
(id 1, connected) registered for job `"j"`, a publish delivers to B only
and returns the registry unchanged: A is still registered afterwards,
where the claim says the failed observer is unregistered. -/
theorem broadcast_counterexample :
    broadcast [("j", [⟨0, false⟩, ⟨1, true⟩])] "j"
      = Except.ok ([1], [("j", [⟨0, false⟩, ⟨1, true⟩])]) ∧
    (⟨0, false⟩ : Observer) ∈
      (([("j", [⟨0, false⟩, ⟨1, true⟩])] : ConnectionRegistry).lookup "j").getD [] := by
  constructor
  · rfl
  · decide

/-- C4 (amended): an upload of more than `MAX_VIDEO_SIZE_MB` megabytes with
a valid extension is rejected, but the `HTTPException(413)` raised by the
size check is caught by the endpoint's catch-all `except`, which first
creates a job record with status `"error"` carrying the size-limit message
and then re-raises the failure as HTTP 500 — the caller sees a 500, not a
413, and a job record IS created in the registry. -/
theorem process_video_oversize (job_id filename : String) (size_mb : ℚ)
    (jobs : List (String × JobRecord))
    (hext : validExtension filename = true)
    (hsize : size_mb > MAX_VIDEO_SIZE_MB) :
    process_video job_id filename size_mb jobs
      = (jobs ++ [(job_id,
          { status := "error", progress := none,
            message := "File too large (max 500MB)" })],
         ApiResult.httpError 500 "File too large (max 500MB)") := by
  rw [process_video, if_neg (not_not_intro hext), if_pos hsize]

/-- Witness for `process_video_oversize`: a 600 MB `.mp4` upload against
the default 500 MB limit. -/
theorem process_video_oversize_witness :
    validExtension "video.mp4" = true ∧ (600 : ℚ) > MAX_VIDEO_SIZE_MB ∧
    process_video "job-1" "video.mp4" 600 []
      = ([("job-1",
          { status := "error", progress := none,
            message := "File too large (max 500MB)" })],
         ApiResult.httpError 500 "File too large (max 500MB)") :=
  ⟨by decide, by norm_num [MAX_VIDEO_SIZE_MB],
   process_video_oversize "job-1" "video.mp4" 600 [] (by decide)
     (by norm_num [MAX_VIDEO_SIZE_MB])⟩

/-- C4 counterexample: for the 600 MB upload the registry afterwards DOES
hold a record for the job (status `"error"`), and the client-facing
rejection carries status code 500, not 413 — the claim's "no job record is
created" is false on the code. -/
theorem process_video_oversize_counterexample :
    ((process_video "job-1" "video.mp4" 600 []).1.lookup "job-1"
      = some { status := "error", progress := none,
               message := "File too large (max 500MB)" }) ∧
    (process_video "job-1" "video.mp4" 600 []).2
      = ApiResult.httpError 500 "File too large (max 500MB)" := by
  have h : process_video "job-1" "video.mp4" 600 []
      = ([("job-1",
          { status := "error", progress := none,
            message := "File too large (max 500MB)" })],
         ApiResult.httpError 500 "File too large (max 500MB)") := by
    rw [process_video, if_neg (not_not_intro (by decide)),
      if_pos (by norm_num [MAX_VIDEO_SIZE_MB])]
    rfl
  rw [h]
  exact ⟨rfl, rfl⟩

/-- C5: over both pipelines — upload jobs (`process_video_async` with
`start_progress = 0`) and URL jobs (`process_url_async` then
`process_video_async` with `start_progress = 15`) — the written progress
values are monotonically non-decreasing, never exceed 100 (each
`update_job` caps at `min(progress, 100)`), every prefix of the write
sequence (a run that fails mid-pipeline stops after a prefix) is likewise
monotone, and the completion write sets progress exactly 100. -/
theorem progress_monotone_capped :
    (List.Chain' (· ≤ ·) uploadProgressTrace ∧
      (∀ p ∈ uploadProgressTrace, p ≤ 100) ∧
      uploadProgressTrace.getLast? = some 100 ∧
      (∀ k, List.Chain' (· ≤ ·) (uploadProgressTrace.take k))) ∧
    (List.Chain' (· ≤ ·) urlProgressTrace ∧
      (∀ p ∈ urlProgressTrace, p ≤ 100) ∧
      urlProgressTrace.getLast? = some 100 ∧
      (∀ k, List.Chain' (· ≤ ·) (urlProgressTrace.take k))) := by
  have h1 : List.Chain' (· ≤ ·) uploadProgressTrace := by
    simp [uploadProgressTrace, videoPipelineProgress, update_job_progress,
      List.chain'_cons]
  have h2 : List.Chain' (· ≤ ·) urlProgressTrace := by
    simp [urlProgressTrace, videoPipelineProgress, update_job_progress,
      List.chain'_cons]
  refine ⟨⟨h1, by decide, by decide, fun k => h1.take k⟩,
          ⟨h2, by decide, by decide, fun k => h2.take k⟩⟩

theorem videoUpdates_not_terminal (s : ℕ) :
    ∀ w ∈ videoUpdates s, isTerminal w = false := by
  intro w hw
  fin_cases hw <;> rfl

theorem process_video_async_shape (s : ℕ) (failStep : Option (Fin 7))
    (errMsg : String) :
    ∃ pre tw, process_video_async s failStep errMsg = pre ++ [tw] ∧
      isTerminal tw = true ∧ ∀ w ∈ pre, isTerminal w = false := by
  cases failStep with
  | none =>
    exact ⟨videoUpdates s, completedWrite, rfl, rfl, videoUpdates_not_terminal s⟩
  | some k =>
    exact ⟨(videoUpdates s).take (k.val + 1), errorWrite errMsg, rfl, rfl,
      fun w hw => videoUpdates_not_terminal s w (List.take_subset _ _ hw)⟩

theorem terminalOnlyLast_concat (pre : List JobWrite) (tw : JobWrite)
    (hpre : ∀ w ∈ pre, isTerminal w = false) :
    terminalOnlyLast (pre ++ [tw]) := by
  intro w hw
  rw [List.dropLast_concat] at hw
  exact hpre w hw

/-- C6: in every run of `process_video_async` — with any `start_progress`,
any failing step (or none) and any error message — and in every run of
`process_url_async` around it, the one write that sets a terminal status
(`completed` or `error`) is the last write of the job's trace: no write to
status, progress, message, output_dir or metadata follows it. -/
theorem terminal_write_is_last (failStep : Option (Fin 7)) (errMsg : String) :
    (∀ s, terminalOnlyLast (process_video_async s failStep errMsg) ∧
      (process_video_async s failStep errMsg).getLast?.map isTerminal
        = some true) ∧
    (∀ downloadFails : Bool,
      terminalOnlyLast (process_url_async downloadFails failStep errMsg) ∧
      (process_url_async downloadFails failStep errMsg).getLast?.map isTerminal
        = some true) := by
  constructor
  · intro s
    obtain ⟨pre, tw, heq, hterm, hpre⟩ :=
      process_video_async_shape s failStep errMsg
    rw [heq]
    refine ⟨terminalOnlyLast_concat pre tw hpre, ?_⟩
    rw [List.getLast?_concat]
    simp [hterm]
  · intro downloadFails
    cases downloadFails with
    | true =>
      have htr : process_url_async true failStep errMsg
          = [updateWrite 5 "Downloading video from URL...", errorWrite errMsg] := rfl
      rw [htr]
      refine ⟨terminalOnlyLast_concat
        [updateWrite 5 "Downloading video from URL..."] (errorWrite errMsg)
        (fun w hw => by rw [List.mem_singleton.mp hw]; rfl), ?_⟩
      rw [show ([updateWrite 5 "Downloading video from URL...",
          errorWrite errMsg] : List JobWrite)
        = [updateWrite 5 "Downloading video from URL..."] ++ [errorWrite errMsg]
        from rfl]
      rw [List.getLast?_concat]
      rfl
    | false =>
      obtain ⟨pre, tw, heq, hterm, hpre⟩ :=
        process_video_async_shape 15 failStep errMsg
      have htr : process_url_async false failStep errMsg
          = ([updateWrite 5 "Downloading video from URL...",
              updateWrite 15 "Video downloaded, starting processing..."] ++ pre)
            ++ [tw] := by
        show updateWrite 5 "Downloading video from URL..."
            :: updateWrite 15 "Video downloaded, starting processing..."
            :: process_video_async 15 failStep errMsg = _
        rw [heq]
        simp
      rw [htr]
      refine ⟨terminalOnlyLast_concat _ tw ?_, ?_⟩
      · intro w hw
        rcases List.mem_append.mp hw with hw1 | hw2
        · rcases List.mem_cons.mp hw1 with rfl | hw1
          · rfl
          · rw [List.mem_singleton.mp hw1]; rfl
        · exact hpre w hw2
      · rw [List.getLast?_concat]
        simp [hterm]

/-- C10: when highlight inference yields the empty candidate list, the
all-success pipeline still ends with the completion write (an empty list
is not an error), `create_highlight_video` retains no clip and therefore
writes no `highlights.mp4` into the output directory, and retrieving the
`highlights` artifact of that completed job returns the 404
"File not found" error. -/
theorem empty_highlights_completed_no_reel (duration : ℚ) :
    (process_video_async 0 none "").getLast? = some completedWrite ∧
    create_highlight_video duration [] = [] ∧
    pipelineArtifacts duration []
      = ["audio.mp3", "resized.mp4", "subtitles.srt",
         "final_with_subtitles.mp4", "metadata.json"] ∧
    download_file true (pipelineArtifacts duration []) "highlights"
      = Except.error (404, "File not found") := by
  have hclips : create_highlight_video duration [] = [] := rfl
  have hart : pipelineArtifacts duration []
      = ["audio.mp3", "resized.mp4", "subtitles.srt",
         "final_with_subtitles.mp4", "metadata.json"] := by
    simp [pipelineArtifacts, hclips]
  refine ⟨?_, hclips, hart, ?_⟩
  · show (videoUpdates 0 ++ [completedWrite]).getLast? = some completedWrite
    exact List.getLast?_concat _
  · rw [hart]
    rfl

end HighlightExtractor
